import Mathlib

/-!
Verification development for the interactive selector core of try-rs
(src/try.rs). The Rust code is shallowly embedded: f64 becomes ℝ,
SystemTime becomes an ℝ timestamp in seconds, PathBuf becomes String,
strings that are walked character by character become List Char, and the
filesystem is abstracted as the directory listing it would produce (it
enters only as an explicit parameter where the code performs I/O).
-/

abbrev PathBuf := String

/-- Embedding of struct TryEntry (src/try.rs, lines 110-117). The display
name and its lowercased form are both stored, as in the source. -/
structure TryEntry where
  basename : List Char
  basename_down : List Char
  path : PathBuf
  mtime : ℝ
  score : ℝ

/-- Embedding of enum SelectorMode (src/try.rs, lines 119-122). -/
inductive SelectorMode
  | scan (base : PathBuf)
  | history (workspaces : List PathBuf)

/-- Whether a SelectorMode is the Scan variant. -/
def SelectorMode.isScan : SelectorMode → Bool
  | SelectorMode.scan _ => true
  | SelectorMode.history _ => false

/-- Embedding of struct TrySelector (src/try.rs, lines 124-136). -/
structure TrySelector where
  mode : SelectorMode
  workspace_path : PathBuf
  input_buffer : List Char
  cursor_pos : Nat
  scroll_offset : Nat
  entries : List TryEntry
  marked_for_deletion : List PathBuf
  delete_mode : Bool
  delete_status : Option String
  width : Nat
  height : Nat

/-- Embedding of enum ShellAction (src/try.rs, lines 737-742). -/
inductive ShellAction
  | cd (p : PathBuf)
  | mkdirCd (p : PathBuf)
  | set (p : PathBuf)
deriving DecidableEq

/-- UTF-8 byte length of one character, as counted by Rust String::len. -/
def utf8CharLen (c : Char) : Nat :=
  if c.val < 128 then 1 else if c.val < 2048 then 2 else if c.val < 65536 then 3 else 4

/-- UTF-8 byte length of a name; Rust String::len (used at src/try.rs
line 725) counts bytes, not characters. -/
def utf8Len (s : List Char) : Nat :=
  (s.map utf8CharLen).sum

/-- Base date-suffix bonus of calculate_score (src/try.rs, lines 679-681):
2.0 when the display name ends in a digit. -/
def baseBonus (basename : List Char) : ℝ :=
  match basename.getLast? with
  | some c => if c.isDigit then 2 else 0
  | none => 0

/-- Remaining (unconsumed) query after the greedy left-to-right subsequence
walk of the scorer loop (src/try.rs, lines 693-713), tracking only the
query pointer. -/
def subseqRest : List Char → List Char → List Char
  | _, [] => []
  | [], qc :: qs => qc :: qs
  | t :: ts, qc :: qs => if t = qc then subseqRest ts qs else subseqRest ts (qc :: qs)

/-- Positions (0-based character indices) matched by the same greedy
left-to-right subsequence walk. -/
def matchPositions : List Char → List Char → Nat → List Nat
  | _, [], _ => []
  | [], _ :: _, _ => []
  | t :: ts, qc :: qs, i =>
      if t = qc then i :: matchPositions ts qs (i + 1)
      else matchPositions ts (qc :: qs) (i + 1)

/-- Result of the scorer subsequence loop: accumulated score, index of the
last matched character (-1 when none), and the unconsumed query. -/
structure WalkOut where
  score : ℝ
  lastPos : Int
  rest : List Char

/-- Embedding of the while loop of calculate_score (src/try.rs, lines
689-713): per-match bonus 1.0, boundary bonus 1.0 at index 0 or after a
non-alphanumeric character, proximity bonus 2/sqrt(gap+1). The character
preceding position i is carried as prev. -/
noncomputable def scoreWalk : List Char → List Char → Nat → Option Char → Int → ℝ → WalkOut
  | _, [], _, _, lastPos, score => WalkOut.mk score lastPos []
  | [], qc :: qs, _, _, lastPos, score => WalkOut.mk score lastPos (qc :: qs)
  | t :: ts, qc :: qs, i, prev, lastPos, score =>
      if t = qc then
        let isBoundary : Bool := match prev with
          | none => true
          | some p => !p.isAlphanum
        let s1 := score + 1
        let s2 := if isBoundary then s1 + 1 else s1
        let gap : Int := (i : Int) - lastPos - 1
        let s3 := if 0 ≤ lastPos then s2 + 2 / Real.sqrt ((gap + 1 : Int) : ℝ) else s2
        scoreWalk ts qs (i + 1) (some t) (i : Int) s3
      else
        scoreWalk ts (qc :: qs) (i + 1) (some t) lastPos score

/-- Embedding of calculate_score (src/try.rs, lines 676-735). The query is
already lowercased by the caller (refresh_scores). A none intermediate
result is the hard-reject early return 0.0, which skips the recency bonus.
The recency bonus is added only when now is not before mtime, mirroring
duration_since returning Ok. -/
noncomputable def calculate_score (entry : TryEntry) (queryChars : List Char) (now : ℝ) : ℝ :=
  let score0 := baseBonus entry.basename
  let matched : Option ℝ :=
    if queryChars = [] then some score0
    else
      let w := scoreWalk entry.basename_down queryChars 0 none (-1) score0
      if w.rest ≠ [] then none
      else
        let s1 := if 0 ≤ w.lastPos then
            w.score * ((queryChars.length : ℝ) / ((w.lastPos : ℝ) + 1))
          else w.score
        some (s1 * (10 / ((utf8Len entry.basename : ℝ) + 10)))
  match matched with
  | none => 0
  | some s => if entry.mtime ≤ now then s + 3 / Real.sqrt ((now - entry.mtime) / 3600 + 1) else s

/-- An entry is wellformed when its stored lowercased name is the lowercase
image of its display name, as established by load_entries. -/
def Wellformed (e : TryEntry) : Prop :=
  e.basename_down = e.basename.map Char.toLower

/-- Modelled from the spec: the claim C3 final-score formula with
name_length read as the character count of the display name (the
spec name length), for comparison with the code, which uses the UTF-8 byte count. -/
noncomputable def specScoreC3 (e : TryEntry) (q : List Char) (now : ℝ) : ℝ :=
  let w := scoreWalk e.basename_down q 0 none (-1) (baseBonus e.basename)
  w.score * ((q.length : ℝ) / ((w.lastPos : ℝ) + 1))
    * (10 / ((e.basename.length : ℝ) + 10))
    + 3 / Real.sqrt ((now - e.mtime) / 3600 + 1)

/-- Embedding of TrySelector::get_filtered_entries (src/try.rs, lines
279-285): all entries for an empty query, otherwise entries with a
strictly positive score. -/
noncomputable def get_filtered_entries (s : TrySelector) : List TryEntry :=
  if s.input_buffer = [] then s.entries
  else s.entries.filter (fun e => decide (0 < e.score))

/-- Embedding of TrySelector::visible_count (src/try.rs, lines 287-292):
filtered entries plus one trailing virtual row whenever the query is
non-empty; the mode is not consulted. -/
noncomputable def visible_count (s : TrySelector) : Nat :=
  let create_new_option := s.input_buffer ≠ []
  (get_filtered_entries s).length + (if create_new_option then 1 else 0)

/-- Rows of the scrollable list area (src/try.rs, lines 455-460). -/
def maxVisible (s : TrySelector) : Nat :=
  max (s.height - 8) 3

/-- The scroll adjustment performed at the top of render (src/try.rs,
lines 463-468). -/
def adjustScroll (s : TrySelector) : TrySelector :=
  if s.cursor_pos < s.scroll_offset then
    { s with scroll_offset := s.cursor_pos }
  else if s.scroll_offset + maxVisible s ≤ s.cursor_pos then
    { s with scroll_offset := s.cursor_pos + 1 - maxVisible s }
  else s

/-- Embedding of TrySelector::toggle_delete_mark (src/try.rs, lines
294-315). -/
noncomputable def toggle_delete_mark (s : TrySelector) : TrySelector :=
  match (get_filtered_entries s).get? s.cursor_pos with
  | none => s
  | some e =>
      let s1 :=
        if e.path ∈ s.marked_for_deletion then
          { s with marked_for_deletion :=
              s.marked_for_deletion.filter (fun p => decide (p ≠ e.path)) }
        else
          { s with marked_for_deletion := s.marked_for_deletion ++ [e.path],
                   delete_mode := true }
      if s1.marked_for_deletion = [] then { s1 with delete_mode := false } else s1

/-- Embedding of TrySelector::handle_selection (src/try.rs, lines 317-342).
The current date string (used to name the created directory) is a
parameter. -/
noncomputable def handle_selection (s : TrySelector) (today : List Char) : Option ShellAction :=
  let filtered := get_filtered_entries s
  if s.input_buffer ≠ [] ∧ s.cursor_pos = filtered.length then
    match s.mode with
    | SelectorMode.scan base =>
        let name := s.input_buffer.map (fun c => if c = ' ' then '-' else c)
        some (ShellAction.mkdirCd (base ++ ("/") ++ String.mk (name ++ [('-')] ++ today)))
    | SelectorMode.history _ => none
  else
    match (filtered.get? s.cursor_pos) with
    | some e =>
        match s.mode with
        | SelectorMode.scan _ => some (ShellAction.cd e.path)
        | SelectorMode.history _ => some (ShellAction.set e.path)
    | none => none

/-- Embedding of TrySelector::refresh_scores (src/try.rs, lines 393-404):
lowercase the query, recompute every score, then sort descending by score
with a stable merge sort; the comparator never sees incomparable values
because scores are real numbers here. -/
noncomputable def refresh_scores (s : TrySelector) (now : ℝ) : TrySelector :=
  let query := s.input_buffer.map Char.toLower
  let scored := s.entries.map (fun e => { e with score := calculate_score e query now })
  { s with entries := scored.mergeSort (fun a b => decide (b.score ≤ a.score)) }

/-- One row of the list area as painted by render. -/
inductive RowKind
  | entryRow (e : TryEntry)
  | createNewRow

/-- The list rows painted by render (src/try.rs, lines 455-474 and
541-549): indices from scroll_offset up to visible_end, each either a real
filtered entry or the trailing create-new row. -/
noncomputable def renderRows (s : TrySelector) : List RowKind :=
  let max_visible := maxVisible s
  let show_create_new := s.input_buffer ≠ []
  let filtered := get_filtered_entries s
  let total_items := filtered.length + (if show_create_new then 1 else 0)
  let visible_end := min (s.scroll_offset + max_visible) total_items
  (List.range' s.scroll_offset (visible_end - s.scroll_offset)).map
    (fun i => if h : i < filtered.length then RowKind.entryRow (filtered.get ⟨i, h⟩)
              else RowKind.createNewRow)

/-- Positions highlighted by TrySelector::print_highlighted (src/try.rs,
lines 590-620): the greedy subsequence walk of the lowercased text against
the lowercased query; nothing is highlighted for an empty query. -/
def printHighlightedPositions (text : List Char) (query : List Char) : List Nat :=
  if query = [] then []
  else matchPositions (text.map Char.toLower) (query.map Char.toLower) 0

/-- Shape test for the fixed-length date block of the renderer regex
(src/try.rs, line 504): four digits, hyphen, two digits, hyphen, two
digits. -/
def dateShapeOk : List Char → Bool
  | [y1, y2, y3, y4, s1, m1, m2, s2, d1, d2] =>
      y1.isDigit && y2.isDigit && y3.isDigit && y4.isDigit && s1 == '-' &&
      m1.isDigit && m2.isDigit && s2 == '-' && d1.isDigit && d2.isDigit
  | _ => false

/-- The renderer date-suffix split: a name matches the anchored regex
(.+)-(dddd-dd-dd) exactly when it has at least 12 characters, ends in a
10-character date block, and has a hyphen just before that block; the
split point is then unique because the date block has fixed length. -/
def splitDateSuffix (name : List Char) : Option (List Char × List Char) :=
  let n := name.length
  if 12 ≤ n ∧ name.get? (n - 11) = some '-' ∧ dateShapeOk (name.drop (n - 10)) then
    some (name.take (n - 11), name.drop (n - 10))
  else none

/-- Character positions of the display name that render paints in the
highlight style (src/try.rs, lines 502-531): for a date-suffixed name,
only the name segment is walked against the query, the separating hyphen
is highlighted whenever the non-empty query contains a hyphen, and the
date segment is never highlighted; other names are walked in full. -/
def renderHighlights (basename : List Char) (query : List Char) : List Nat :=
  match splitDateSuffix basename with
  | some (namePart, _) =>
      printHighlightedPositions namePart query ++
      (if query ≠ [] ∧ ('-') ∈ query then [namePart.length] else [])
  | none => printHighlightedPositions basename query

/-- Keys consumed by the delete-confirmation sub-loop (src/try.rs, lines
631-654). -/
inductive ConfirmKey
  | ch (c : Char)
  | backKey
  | enterKey
  | escKey
  | otherKey

/-- The string submitted by the confirmation sub-loop: characters append,
backspace pops, Enter submits, Esc clears and submits the empty string. -/
def collectConfirmInput : List ConfirmKey → List Char → List Char
  | [], acc => acc
  | ConfirmKey.enterKey :: _, acc => acc
  | ConfirmKey.escKey :: _, _ => []
  | ConfirmKey.ch c :: ks, acc => collectConfirmInput ks (acc ++ [c])
  | ConfirmKey.backKey :: ks, acc => collectConfirmInput ks acc.dropLast
  | ConfirmKey.otherKey :: ks, acc => collectConfirmInput ks acc

/-- Embedding of TrySelector::confirm_batch_delete (src/try.rs, lines
622-672) composed with the entry reload. The filesystem is abstracted by
the listing fsEntries the base directory would produce at confirmation
time; deleting the marked paths and reloading therefore yields the
listing restricted to unmarked paths (marked paths absent from the
listing are silently skipped), while any other input leaves the listing
untouched. The status message counts the marked paths. -/
def confirm_batch_delete (s : TrySelector) (input : List Char)
    (fsEntries : List TryEntry) : TrySelector :=
  let entries2 :=
    if input = "YES".data then
      fsEntries.filter (fun e => decide (e.path ∉ s.marked_for_deletion))
    else fsEntries
  let status :=
    if input = "YES".data then
      ("Deleted ") ++ toString s.marked_for_deletion.length ++ (" items.")
    else ("Delete cancelled.")
  { s with delete_status := some status,
           marked_for_deletion := [],
           delete_mode := false,
           entries := entries2 }

/-- Input events of the main loop (src/try.rs, lines 193-266). Events that
make the loop recompute scores carry the current time; the Enter event
carries the confirmation sub-loop input, the listing the filesystem would
produce at that moment, and the current date string. -/
inductive UiEvent
  | charKey (c : Char) (now : ℝ)
  | backspace (now : ℝ)
  | up
  | down
  | del
  | enter (typed : List Char) (fsEntries : List TryEntry) (now : ℝ) (today : List Char)
  | esc
  | ctrlC
  | resize (w : Nat) (h : Nat)

/-- Outcome of one main-loop iteration: keep looping with a new state, or
exit with an optional committed action. -/
inductive LoopStep
  | cont (s : TrySelector)
  | exit (a : Option ShellAction)

/-- Characters accepted into the query (src/try.rs, line 248). -/
def allowedChar (c : Char) : Bool :=
  c.isAlphanum || c == '-' || c == '_' || c == '.' || c == ' '

/-- One iteration of TrySelector::main_loop (src/try.rs, lines 193-275).
Whenever the iteration mutates the state it also repaints, so the render
scroll adjustment is applied; iterations that change nothing skip the
repaint and return the state unchanged. -/
noncomputable def mainStep (e : UiEvent) (s : TrySelector) : LoopStep :=
  match e with
  | UiEvent.ctrlC =>
      if s.delete_mode then
        LoopStep.cont (adjustScroll { s with delete_mode := false, marked_for_deletion := [] })
      else LoopStep.exit none
  | UiEvent.esc =>
      if s.delete_mode then
        LoopStep.cont (adjustScroll { s with delete_mode := false, marked_for_deletion := [] })
      else LoopStep.exit none
  | UiEvent.enter typed fsEntries now today =>
      if s.delete_mode = true ∧ s.marked_for_deletion ≠ [] then
        LoopStep.cont (adjustScroll (refresh_scores (confirm_batch_delete s typed fsEntries) now))
      else
        match handle_selection s today with
        | some a => LoopStep.exit (some a)
        | none => LoopStep.cont s
  | UiEvent.up =>
      LoopStep.cont (if 0 < s.cursor_pos then
        adjustScroll { s with cursor_pos := s.cursor_pos - 1 } else s)
  | UiEvent.down =>
      LoopStep.cont (if s.cursor_pos < visible_count s - 1 then
        adjustScroll { s with cursor_pos := s.cursor_pos + 1 } else s)
  | UiEvent.backspace now =>
      LoopStep.cont (adjustScroll (refresh_scores
        { s with input_buffer := s.input_buffer.dropLast, cursor_pos := 0 } now))
  | UiEvent.del =>
      LoopStep.cont (adjustScroll (toggle_delete_mark s))
  | UiEvent.charKey c now =>
      LoopStep.cont (if allowedChar c then
        adjustScroll (refresh_scores
          { s with input_buffer := s.input_buffer ++ [c], cursor_pos := 0 } now)
        else s)
  | UiEvent.resize w h =>
      LoopStep.cont (adjustScroll { s with width := w, height := h })

/-- The state after one iteration, when the loop continues; an exiting
iteration leaves the state as it was. -/
noncomputable def stepState (e : UiEvent) (s : TrySelector) : TrySelector :=
  match mainStep e s with
  | LoopStep.cont s2 => s2
  | LoopStep.exit _ => s

/-- The selector state at the first poll: TrySelector::new (src/try.rs,
lines 139-154) with the loaded entries, followed by the initial
refresh_scores and render of main_loop (lines 184-185). -/
noncomputable def initState (mode : SelectorMode) (searchTerm : List Char)
    (workspacePath : PathBuf) (entries0 : List TryEntry) (w : Nat) (h : Nat)
    (now : ℝ) : TrySelector :=
  adjustScroll (refresh_scores
    { mode := mode,
      workspace_path := workspacePath,
      input_buffer := searchTerm.map (fun c => if c = ' ' then '-' else c),
      cursor_pos := 0,
      scroll_offset := 0,
      entries := entries0,
      marked_for_deletion := [],
      delete_mode := false,
      delete_status := none,
      width := w,
      height := h } now)

/-- States the selector can be in at the top of a main-loop iteration. -/
inductive Reachable : TrySelector → Prop
  | init (mode : SelectorMode) (searchTerm : List Char) (workspacePath : PathBuf)
      (entries0 : List TryEntry) (w : Nat) (h : Nat) (now : ℝ) :
      Reachable (initState mode searchTerm workspacePath entries0 w h now)
  | step (e : UiEvent) (s s2 : TrySelector) :
      Reachable s → mainStep e s = LoopStep.cont s2 → Reachable s2

/-- Events of claim C5 that do not reload entries: character input,
backspace, cursor navigation and delete-mark toggling. -/
def isNavEvent : UiEvent → Prop
  | UiEvent.charKey _ _ => True
  | UiEvent.backspace _ => True
  | UiEvent.up => True
  | UiEvent.down => True
  | UiEvent.del => True
  | _ => False

/-- The cursor and scroll invariant of claim C5. -/
def CursorOk (s : TrySelector) : Prop :=
  (0 < visible_count s → s.cursor_pos < visible_count s)
  ∧ (visible_count s = 0 → s.cursor_pos = 0)
  ∧ s.scroll_offset ≤ s.cursor_pos
  ∧ s.cursor_pos < s.scroll_offset + maxVisible s

/-- Terminal-side resource state for TrySelector::run. -/
structure TermState where
  rawMode : Bool
  cursorHidden : Bool

/-- Which of the fallible operations of TrySelector::run succeed, and what
main_loop returns; mainLoopResult none models main_loop returning Err. -/
structure IoOracle where
  loadOk : Bool
  enableRawOk : Bool
  hideOk : Bool
  clearOk : Bool
  scanBaseMissing : Bool
  createDirOk : Bool
  mainLoopResult : Option (Option ShellAction)
  showOk : Bool
  clear2Ok : Bool
  moveOk : Bool
  disableRawOk : Bool

/-- Embedding of the control flow of TrySelector::run (src/try.rs, lines
156-180). Every statement written with the question-mark operator returns
early on failure; the main_loop result is captured without the operator,
so the teardown statements run after loop errors, but not after failures
of the statements between enable_raw_mode and main_loop. -/
def runTry (mode : SelectorMode) (o : IoOracle) (t0 : TermState) :
    Option (Option ShellAction) × TermState :=
  if !o.loadOk then (none, t0) else
  if !o.enableRawOk then (none, t0) else
  let t1 := { t0 with rawMode := true }
  if !o.hideOk then (none, t1) else
  let t2 := { t1 with cursorHidden := true }
  if !o.clearOk then (none, t2) else
  if (match mode with
      | SelectorMode.scan _ => o.scanBaseMissing && !o.createDirOk
      | SelectorMode.history _ => false) then (none, t2) else
  let r := o.mainLoopResult
  if !o.showOk then (none, t2) else
  let t3 := { t2 with cursorHidden := false }
  if !o.clear2Ok then (none, t3) else
  if !o.moveOk then (none, t3) else
  if !o.disableRawOk then (none, t3) else
  (r, { t3 with rawMode := false })

/-- Oracle of the C9 failing input: raw mode enables fine, the Scan base
directory is missing and fs::create_dir_all fails. -/
def c9Oracle : IoOracle :=
  { loadOk := true, enableRawOk := true, hideOk := true, clearOk := true,
    scanBaseMissing := true, createDirOk := false,
    mainLoopResult := some none,
    showOk := true, clear2Ok := true, moveOk := true, disableRawOk := true }

/-- A History-mode state with the one-character query x and no entries,
used to exhibit the create-new row outside Scan mode. -/
def historyState : TrySelector :=
  { mode := SelectorMode.history [("h")],
    workspace_path := ("w"),
    input_buffer := ['x'],
    cursor_pos := 0,
    scroll_offset := 0,
    entries := [],
    marked_for_deletion := [],
    delete_mode := false,
    delete_status := none,
    width := 80,
    height := 24 }

/-- Entry whose one-character display name takes two UTF-8 bytes. -/
def eAcute : TryEntry :=
  { basename := "é".data, basename_down := "é".data, path := ("p"),
    mtime := 0, score := 0 }

/-- Plain ASCII entry used by witnesses. -/
def eAb : TryEntry :=
  { basename := "ab".data, basename_down := "ab".data, path := ("q"),
    mtime := 0, score := 0 }

/-- Entry named a, used by the C5 counterexample run. -/
def entA : TryEntry :=
  { basename := ['a'], basename_down := ['a'], path := ("a"), mtime := 0, score := 0 }

/-- Entry named b, used by the C5 counterexample run. -/
def entB : TryEntry :=
  { basename := ['b'], basename_down := ['b'], path := ("b"), mtime := 0, score := 0 }

/-- A selector state with one marked path and nothing else pending, used
to show the deletion status message counting a marked path that no longer
exists. -/
def c6State : TrySelector :=
  { mode := SelectorMode.scan ("base"),
    workspace_path := ("w"),
    input_buffer := [],
    cursor_pos := 0,
    scroll_offset := 0,
    entries := [],
    marked_for_deletion := [("p")],
    delete_mode := true,
    delete_status := none,
    width := 80,
    height := 24 }

/-- Entry carrying a strictly positive stored score. -/
def eScored : TryEntry :=
  { basename := ['x'], basename_down := ['x'], path := ("p"), mtime := 0, score := 5 }

/-- History-mode state whose cursor sits on the trailing virtual row while
a delete mark is pending: entries holds one positively scored entry, the
query is non-empty and the cursor index equals the filtered length. -/
def c10State : TrySelector :=
  { mode := SelectorMode.history [("h")],
    workspace_path := ("w"),
    input_buffer := ['x'],
    cursor_pos := 1,
    scroll_offset := 0,
    entries := [eScored],
    marked_for_deletion := [("p")],
    delete_mode := true,
    delete_status := none,
    width := 80,
    height := 24 }

/-- History-mode state on the trailing virtual row with nothing marked,
used as the witness input of claim C10. -/
def c10Plain : TrySelector :=
  { mode := SelectorMode.history [("h")],
    workspace_path := ("w"),
    input_buffer := ['x'],
    cursor_pos := 0,
    scroll_offset := 0,
    entries := [],
    marked_for_deletion := [],
    delete_mode := false,
    delete_status := none,
    width := 80,
    height := 24 }

theorem scoreWalk_rest (t : List Char) : ∀ (q : List Char) (i : Nat) (prev : Option Char)
    (lp : Int) (sc : ℝ), (scoreWalk t q i prev lp sc).rest = subseqRest t q := by
  induction t with
  | nil =>
      intro q i prev lp sc
      cases q <;> simp [scoreWalk, subseqRest]
  | cons c ts ih =>
      intro q i prev lp sc
      cases q with
      | nil => simp [scoreWalk, subseqRest]
      | cons qc qs =>
          by_cases h : c = qc
          · simp [scoreWalk, subseqRest, h, ih]
          · simp [scoreWalk, subseqRest, h, ih]

theorem subseqRest_eq_nil_iff (t : List Char) :
    ∀ q : List Char, subseqRest t q = [] ↔ List.Sublist q t := by
  induction t with
  | nil =>
      intro q
      cases q <;> simp [subseqRest]
  | cons c ts ih =>
      intro q
      cases q with
      | nil => simp [subseqRest]
      | cons qc qs =>
          by_cases h : c = qc
          · subst h
            rw [show subseqRest (c :: ts) (c :: qs) = subseqRest ts qs by simp [subseqRest]]
            rw [ih qs]
            exact (List.cons_sublist_cons).symm
          · rw [show subseqRest (c :: ts) (qc :: qs) = subseqRest ts (qc :: qs) by
              simp [subseqRest, h]]
            rw [ih (qc :: qs)]
            constructor
            · intro hsub
              exact List.Sublist.cons c hsub
            · intro hsub
              cases hsub with
              | cons _ h2 => exact h2
              | cons₂ => exact absurd rfl h


theorem scoreWalk_lastPos_of_nonneg (t : List Char) : ∀ (q : List Char) (i : Nat)
    (prev : Option Char) (lp : Int) (sc : ℝ), 0 ≤ lp →
    0 ≤ (scoreWalk t q i prev lp sc).lastPos := by
  induction t with
  | nil =>
      intro q i prev lp sc h
      cases q <;> simpa [scoreWalk] using h
  | cons c ts ih =>
      intro q i prev lp sc h
      cases q with
      | nil => simpa [scoreWalk] using h
      | cons qc qs =>
          by_cases hc : c = qc
          · simp only [scoreWalk, hc, if_pos rfl]
            apply ih
            omega
          · simp only [scoreWalk, if_neg hc]
            exact ih _ _ _ _ _ h

theorem scoreWalk_lastPos_nonneg (t : List Char) : ∀ (q : List Char) (i : Nat)
    (prev : Option Char) (lp : Int) (sc : ℝ), q ≠ [] →
    (scoreWalk t q i prev lp sc).rest = [] → 0 ≤ (scoreWalk t q i prev lp sc).lastPos := by
  induction t with
  | nil =>
      intro q i prev lp sc hq hrest
      cases q with
      | nil => exact absurd rfl hq
      | cons qc qs => simp [scoreWalk] at hrest
  | cons c ts ih =>
      intro q i prev lp sc hq hrest
      cases q with
      | nil => exact absurd rfl hq
      | cons qc qs =>
          by_cases hc : c = qc
          · simp only [scoreWalk, hc, if_pos rfl]
            apply scoreWalk_lastPos_of_nonneg
            omega
          · simp only [scoreWalk, if_neg hc] at hrest ⊢
            exact ih _ _ _ _ _ hq hrest

/-- C2: for every entry and every non-empty query that is not a subsequence
of the lowercased name of the entry (equivalently, whose greedy walk
leaves part of the query unconsumed), calculate_score returns exactly
0, regardless of the date-suffix bonus and of the modification time. -/
theorem c2_hard_reject (e : TryEntry) (q : List Char) (now : ℝ)
    (hq : q ≠ []) (h : ¬ List.Sublist q e.basename_down) :
    calculate_score e q now = 0 := by
  have hrest : (scoreWalk e.basename_down q 0 none (-1) (baseBonus e.basename)).rest ≠ [] := by
    rw [scoreWalk_rest]
    intro hnil
    exact h ((subseqRest_eq_nil_iff _ _).mp hnil)
  simp [calculate_score, hq, hrest]

/-- Witness for C2 at the scenario from the spec: query xyz against name
alpha scores exactly 0. -/
theorem c2_hard_reject_witness :
    calculate_score (TryEntry.mk ("alpha".data) ("alpha".data) ("p") 0 0) ("xyz".data) 0 = 0 :=
  c2_hard_reject _ _ _ (by decide) (by decide)

/-- C3 (amended): for a wellformed entry whose lowercased name fully
consumes the non-empty query under the greedy walk, and whose modification
time is not in the future, the final score is the accumulated walk score
(base digit-suffix bonus plus per-match, boundary and proximity bonuses)
times the density factor query_length/(last_match_index+1), times the
length penalty 10/(name_length+10) where name_length is the UTF-8 byte
count of the display name, plus the recency bonus. -/
theorem c3_score_formula (e : TryEntry) (q : List Char) (now : ℝ)
    (hq : q ≠ []) (hsub : subseqRest e.basename_down q = []) (ht : e.mtime ≤ now) :
    calculate_score e q now =
      (scoreWalk e.basename_down q 0 none (-1) (baseBonus e.basename)).score
        * ((q.length : ℝ)
            / (((scoreWalk e.basename_down q 0 none (-1) (baseBonus e.basename)).lastPos : ℝ) + 1))
        * (10 / ((utf8Len e.basename : ℝ) + 10))
      + 3 / Real.sqrt ((now - e.mtime) / 3600 + 1) := by
  have hrest : (scoreWalk e.basename_down q 0 none (-1) (baseBonus e.basename)).rest = [] := by
    rw [scoreWalk_rest]
    exact hsub
  have hlp : 0 ≤ (scoreWalk e.basename_down q 0 none (-1) (baseBonus e.basename)).lastPos := by
    apply scoreWalk_lastPos_nonneg _ _ _ _ _ _ hq
    rw [scoreWalk_rest]
    exact hsub
  simp [calculate_score, hq, hrest, hlp, ht]

/-- Witness for C3 at the entry named ab with query ab at time 0. -/
theorem c3_score_formula_witness :
    calculate_score eAb ("ab".data) 0 =
      (scoreWalk eAb.basename_down ("ab".data) 0 none (-1) (baseBonus eAb.basename)).score
        * ((("ab".data).length : ℝ)
            / (((scoreWalk eAb.basename_down ("ab".data) 0 none (-1)
                  (baseBonus eAb.basename)).lastPos : ℝ) + 1))
        * (10 / ((utf8Len eAb.basename : ℝ) + 10))
      + 3 / Real.sqrt ((0 - eAb.mtime) / 3600 + 1) :=
  c3_score_formula eAb ("ab".data) 0 (by decide) (by decide) (le_refl 0)

/-- Counterexample to C3 as stated: for the two-byte one-character name,
the score of the code (byte-length penalty) differs from the formula
with the character count. -/
theorem c3_counterexample :
    calculate_score eAcute ("é".data) 0 ≠ specScoreC3 eAcute ("é".data) 0 := by
  have hb : baseBonus ("é".data) = 0 := rfl
  have hu : utf8Len ("é".data) = 2 := by decide
  have hw : scoreWalk ("é".data) ("é".data) 0 none (-1) 0 = WalkOut.mk 2 0 [] := by
    simp [scoreWalk]
    norm_num
  have hcalc : calculate_score eAcute ("é".data) 0 =
      2 * ((1 : ℝ) / (0 + 1)) * (10 / (2 + 10)) + 3 / Real.sqrt ((0 - 0) / 3600 + 1) := by
    simp [calculate_score, eAcute, hb, hw, hu]
  have hspec : specScoreC3 eAcute ("é".data) 0 =
      2 * ((1 : ℝ) / (0 + 1)) * (10 / (1 + 10)) + 3 / Real.sqrt ((0 - 0) / 3600 + 1) := by
    simp [specScoreC3, eAcute, hb, hw]
  intro heq
  rw [hcalc, hspec] at heq
  have h2 := add_right_cancel heq
  norm_num at h2

/-- C4: after every scoring pass, the entry list handed to the renderer is
pairwise descending in score; equivalently, whenever score a exceeds
score b, entry a appears before entry b. -/
theorem c4_sorted_by_score (s : TrySelector) (now : ℝ) :
    List.Pairwise (fun a b => b.score ≤ a.score) ((refresh_scores s now).entries) := by
  have htrans : ∀ a b c : TryEntry,
      (decide (b.score ≤ a.score)) = true → (decide (c.score ≤ b.score)) = true →
      (decide (c.score ≤ a.score)) = true := by
    intro a b c hab hbc
    simp only [decide_eq_true_eq] at hab hbc ⊢
    exact le_trans hbc hab
  have htot : ∀ a b : TryEntry,
      ((decide (b.score ≤ a.score)) || (decide (a.score ≤ b.score))) = true := by
    intro a b
    simp only [Bool.or_eq_true, decide_eq_true_eq]
    exact le_total b.score a.score
  have h := @List.sorted_mergeSort TryEntry (fun a b => decide (b.score ≤ a.score)) htrans htot
    (s.entries.map (fun e =>
      { e with score := calculate_score e (s.input_buffer.map Char.toLower) now }))
  have h2 : (refresh_scores s now).entries = (s.entries.map (fun e =>
      { e with score := calculate_score e (s.input_buffer.map Char.toLower) now })).mergeSort
        (fun a b => decide (b.score ≤ a.score)) := rfl
  rw [h2]
  exact h.imp (fun hab => by simpa using hab)

theorem renderRow_eq_createNew (fl : List TryEntry) (i : Nat) :
    ((if h : i < fl.length then RowKind.entryRow (fl.get ⟨i, h⟩) else RowKind.createNewRow)
      = RowKind.createNewRow) ↔ fl.length ≤ i := by
  split
  · rename_i h
    simp
    omega
  · rename_i h
    simp
    omega

/-- C1 (amended): the create-new virtual row is counted by visible_count
exactly when the query is non-empty, in both modes; render paints it
exactly when additionally its index, the filtered length, falls inside
the scroll window. The mode plays no role, so History mode shows the row
too. -/
theorem c1_create_new_row (s : TrySelector) :
    (s.input_buffer = [] →
      visible_count s = (get_filtered_entries s).length
      ∧ RowKind.createNewRow ∉ renderRows s)
    ∧ (s.input_buffer ≠ [] →
      visible_count s = (get_filtered_entries s).length + 1
      ∧ (RowKind.createNewRow ∈ renderRows s ↔
          s.scroll_offset ≤ (get_filtered_entries s).length
          ∧ (get_filtered_entries s).length < s.scroll_offset + maxVisible s)) := by
  constructor
  · intro hq
    refine ⟨by simp [visible_count, hq], ?_⟩
    intro hmem
    simp only [renderRows, hq, ne_eq, not_true_eq_false, if_false, List.mem_map] at hmem
    obtain ⟨i, hi, hfi⟩ := hmem
    rw [List.mem_range'_1] at hi
    rw [renderRow_eq_createNew] at hfi
    omega
  · intro hq
    refine ⟨by simp [visible_count, hq], ?_⟩
    constructor
    · intro hmem
      simp only [renderRows, hq, ne_eq, not_false_eq_true, if_true, List.mem_map] at hmem
      obtain ⟨i, hi, hfi⟩ := hmem
      rw [List.mem_range'_1] at hi
      rw [renderRow_eq_createNew] at hfi
      omega
    · intro hwin
      simp only [renderRows, hq, ne_eq, not_false_eq_true, if_true, List.mem_map]
      refine ⟨(get_filtered_entries s).length, ?_, ?_⟩
      · rw [List.mem_range'_1]
        omega
      · rw [renderRow_eq_createNew]

/-- Witness for C1 (amended) at the History-mode state with query x. -/
theorem c1_create_new_row_witness :
    visible_count historyState = (get_filtered_entries historyState).length + 1
    ∧ (RowKind.createNewRow ∈ renderRows historyState ↔
        historyState.scroll_offset ≤ (get_filtered_entries historyState).length
        ∧ (get_filtered_entries historyState).length
            < historyState.scroll_offset + maxVisible historyState) :=
  (c1_create_new_row historyState).2 (by decide)

/-- Counterexample to C1 as stated: in History mode with the non-empty
query x and no entries, visible_count still counts a row and render still
paints the create-new row. -/
theorem c1_counterexample :
    visible_count historyState = 1
    ∧ RowKind.createNewRow ∈ renderRows historyState
    ∧ historyState.mode.isScan = false := by
  refine ⟨rfl, ?_, rfl⟩
  have h : renderRows historyState = [RowKind.createNewRow] := rfl
  rw [h]
  exact List.mem_singleton.mpr rfl

theorem matchPositions_cons_pos (c : Char) (ts qs : List Char) (i : Nat) :
    matchPositions (c :: ts) (c :: qs) i = i :: matchPositions ts qs (i + 1) := by
  simp [matchPositions]

theorem matchPositions_cons_neg {c qc : Char} (h : ¬ c = qc) (ts qs : List Char) (i : Nat) :
    matchPositions (c :: ts) (qc :: qs) i = matchPositions ts (qc :: qs) (i + 1) := by
  simp [matchPositions, h]

theorem subseqRest_cons_pos (c : Char) (ts qs : List Char) :
    subseqRest (c :: ts) (c :: qs) = subseqRest ts qs := by
  simp [subseqRest]

theorem subseqRest_cons_neg {c qc : Char} (h : ¬ c = qc) (ts qs : List Char) :
    subseqRest (c :: ts) (qc :: qs) = subseqRest ts (qc :: qs) := by
  simp [subseqRest, h]

theorem matchPositions_lb (t : List Char) : ∀ (q : List Char) (i x : Nat),
    x ∈ matchPositions t q i → i ≤ x := by
  induction t with
  | nil =>
      intro q i x hx
      cases q <;> simp [matchPositions] at hx
  | cons c ts ih =>
      intro q i x hx
      cases q with
      | nil => simp [matchPositions] at hx
      | cons qc qs =>
          by_cases h : c = qc
          · subst h
            rw [matchPositions_cons_pos] at hx
            rcases List.mem_cons.mp hx with hx2 | hx2
            · omega
            · have := ih qs (i + 1) x hx2
              omega
          · rw [matchPositions_cons_neg h] at hx
            have := ih (qc :: qs) (i + 1) x hx
            omega

theorem matchPositions_ub (t : List Char) : ∀ (q : List Char) (i x : Nat),
    x ∈ matchPositions t q i → x < i + t.length := by
  induction t with
  | nil =>
      intro q i x hx
      cases q <;> simp [matchPositions] at hx
  | cons c ts ih =>
      intro q i x hx
      have hlen : (c :: ts).length = ts.length + 1 := List.length_cons c ts
      cases q with
      | nil => simp [matchPositions] at hx
      | cons qc qs =>
          by_cases h : c = qc
          · subst h
            rw [matchPositions_cons_pos] at hx
            rcases List.mem_cons.mp hx with hx2 | hx2
            · omega
            · have := ih qs (i + 1) x hx2
              omega
          · rw [matchPositions_cons_neg h] at hx
            have := ih (qc :: qs) (i + 1) x hx
            omega

theorem matchPositions_append (t1 : List Char) : ∀ (t2 q : List Char) (i : Nat),
    matchPositions (t1 ++ t2) q i
      = matchPositions t1 q i ++ matchPositions t2 (subseqRest t1 q) (i + t1.length) := by
  induction t1 with
  | nil =>
      intro t2 q i
      cases q <;> simp [matchPositions, subseqRest]
  | cons c ts ih =>
      intro t2 q i
      cases q with
      | nil => simp [matchPositions, subseqRest]
      | cons qc qs =>
          have harith : i + 1 + ts.length = i + (ts.length + 1) := by omega
          by_cases h : c = qc
          · subst h
            rw [List.cons_append, matchPositions_cons_pos, matchPositions_cons_pos,
              subseqRest_cons_pos, ih t2 qs (i + 1), List.cons_append, List.length_cons,
              harith]
          · rw [List.cons_append, matchPositions_cons_neg h, matchPositions_cons_neg h,
              subseqRest_cons_neg h, ih t2 (qc :: qs) (i + 1), List.length_cons, harith]

theorem matchPositions_filter_lt (t1 t2 q : List Char) :
    (matchPositions (t1 ++ t2) q 0).filter (fun x => decide (x < t1.length))
      = matchPositions t1 q 0 := by
  rw [matchPositions_append, List.filter_append]
  have h1 : (matchPositions t1 q 0).filter (fun x => decide (x < t1.length))
      = matchPositions t1 q 0 := by
    apply List.filter_eq_self.mpr
    intro x hx
    have := matchPositions_ub t1 q 0 x hx
    simp only [decide_eq_true_eq]
    omega
  have h2 : (matchPositions t2 (subseqRest t1 q) (0 + t1.length)).filter
      (fun x => decide (x < t1.length)) = [] := by
    apply List.filter_eq_nil_iff.mpr
    intro x hx
    have := matchPositions_lb t2 (subseqRest t1 q) (0 + t1.length) x hx
    simp only [decide_eq_true_eq]
    omega
  rw [h1, h2, List.append_nil]

theorem splitDateSuffix_take (name np dp : List Char)
    (h : splitDateSuffix name = some (np, dp)) :
    np = name.take (name.length - 11) := by
  simp only [splitDateSuffix] at h
  split_ifs at h
  simp only [Option.some.injEq, Prod.mk.injEq] at h
  exact h.1.symm

/-- C8 (amended): for a wellformed entry and a non-empty query, the
renderer highlights exactly the positions of the greedy scorer walk
when the name has no date suffix; for a date-suffixed name it highlights
exactly the walk positions that fall inside the name segment (never the
date segment) plus the separating hyphen whenever the query contains a
hyphen. -/
theorem c8_highlight_positions (e : TryEntry) (q : List Char)
    (hw : Wellformed e) (hq : q ≠ []) :
    (splitDateSuffix e.basename = none →
      renderHighlights e.basename q = matchPositions e.basename_down (q.map Char.toLower) 0)
    ∧ (∀ np dp, splitDateSuffix e.basename = some (np, dp) →
      renderHighlights e.basename q =
        (matchPositions e.basename_down (q.map Char.toLower) 0).filter
            (fun x => decide (x < np.length))
          ++ (if ('-') ∈ q then [np.length] else [])) := by
  rw [Wellformed] at hw
  constructor
  · intro hsplit
    unfold renderHighlights
    rw [hsplit, hw]
    show printHighlightedPositions e.basename q = _
    unfold printHighlightedPositions
    rw [if_neg hq]
  · intro np dp hsplit
    have hnp := splitDateSuffix_take _ _ _ hsplit
    have hdecomp : np ++ e.basename.drop (e.basename.length - 11) = e.basename := by
      rw [hnp]
      exact List.take_append_drop _ _
    unfold renderHighlights
    rw [hsplit, hw]
    show printHighlightedPositions np q ++ _ = _
    rw [← hdecomp]
    rw [List.map_append]
    have hlen : np.length = (np.map Char.toLower).length := (List.length_map _ _).symm
    rw [hlen, matchPositions_filter_lt]
    unfold printHighlightedPositions
    rw [if_neg hq]
    congr 1
    simp [hq]

/-- Witness for C8 (amended) at the name ab with query a. -/
theorem c8_highlight_positions_witness :
    renderHighlights eAb.basename ("a".data)
      = matchPositions eAb.basename_down (("a".data).map Char.toLower) 0 :=
  (c8_highlight_positions eAb ("a".data) (by rw [Wellformed]; decide) (by decide)).1 (by decide)

/-- Counterexample to C8 as stated: for the date-suffixed name
proj-2024-01-01 and query 24, the scorer walk matches inside the date
suffix while the renderer highlights nothing. -/
theorem c8_counterexample :
    renderHighlights ("proj-2024-01-01".data) ("24".data) ≠
      matchPositions (("proj-2024-01-01".data).map Char.toLower)
        (("24".data).map Char.toLower) 0 := by
  decide

@[simp]
theorem adjustScroll_cursor (s : TrySelector) : (adjustScroll s).cursor_pos = s.cursor_pos := by
  unfold adjustScroll
  split_ifs <;> rfl

@[simp]
theorem adjustScroll_entries (s : TrySelector) : (adjustScroll s).entries = s.entries := by
  unfold adjustScroll
  split_ifs <;> rfl

@[simp]
theorem adjustScroll_input (s : TrySelector) : (adjustScroll s).input_buffer = s.input_buffer := by
  unfold adjustScroll
  split_ifs <;> rfl

@[simp]
theorem adjustScroll_marked (s : TrySelector) :
    (adjustScroll s).marked_for_deletion = s.marked_for_deletion := by
  unfold adjustScroll
  split_ifs <;> rfl

@[simp]
theorem adjustScroll_delete_mode (s : TrySelector) :
    (adjustScroll s).delete_mode = s.delete_mode := by
  unfold adjustScroll
  split_ifs <;> rfl

@[simp]
theorem adjustScroll_height (s : TrySelector) : (adjustScroll s).height = s.height := by
  unfold adjustScroll
  split_ifs <;> rfl

@[simp]
theorem adjustScroll_mode (s : TrySelector) : (adjustScroll s).mode = s.mode := by
  unfold adjustScroll
  split_ifs <;> rfl

@[simp]
theorem refresh_scores_input (s : TrySelector) (now : ℝ) :
    (refresh_scores s now).input_buffer = s.input_buffer := rfl

@[simp]
theorem refresh_scores_cursor (s : TrySelector) (now : ℝ) :
    (refresh_scores s now).cursor_pos = s.cursor_pos := rfl

@[simp]
theorem refresh_scores_scroll (s : TrySelector) (now : ℝ) :
    (refresh_scores s now).scroll_offset = s.scroll_offset := rfl

@[simp]
theorem refresh_scores_marked (s : TrySelector) (now : ℝ) :
    (refresh_scores s now).marked_for_deletion = s.marked_for_deletion := rfl

@[simp]
theorem refresh_scores_delete_mode (s : TrySelector) (now : ℝ) :
    (refresh_scores s now).delete_mode = s.delete_mode := rfl

@[simp]
theorem refresh_scores_height (s : TrySelector) (now : ℝ) :
    (refresh_scores s now).height = s.height := rfl

@[simp]
theorem refresh_scores_mode (s : TrySelector) (now : ℝ) :
    (refresh_scores s now).mode = s.mode := rfl

@[simp]
theorem refresh_scores_entries_length (s : TrySelector) (now : ℝ) :
    (refresh_scores s now).entries.length = s.entries.length := by
  show ((s.entries.map _).mergeSort _).length = s.entries.length
  rw [List.length_mergeSort, List.length_map]

@[simp]
theorem confirm_marked (s : TrySelector) (input : List Char) (fs : List TryEntry) :
    (confirm_batch_delete s input fs).marked_for_deletion = [] := rfl

@[simp]
theorem confirm_delete_mode (s : TrySelector) (input : List Char) (fs : List TryEntry) :
    (confirm_batch_delete s input fs).delete_mode = false := rfl

@[simp]
theorem confirm_cursor (s : TrySelector) (input : List Char) (fs : List TryEntry) :
    (confirm_batch_delete s input fs).cursor_pos = s.cursor_pos := rfl

@[simp]
theorem confirm_input (s : TrySelector) (input : List Char) (fs : List TryEntry) :
    (confirm_batch_delete s input fs).input_buffer = s.input_buffer := rfl

@[simp]
theorem confirm_height (s : TrySelector) (input : List Char) (fs : List TryEntry) :
    (confirm_batch_delete s input fs).height = s.height := rfl

@[simp]
theorem toggle_cursor (s : TrySelector) :
    (toggle_delete_mark s).cursor_pos = s.cursor_pos := by
  cases hg : (get_filtered_entries s).get? s.cursor_pos with
  | none => simp only [toggle_delete_mark, hg]
  | some e =>
      simp only [toggle_delete_mark, hg]
      split_ifs <;> rfl

@[simp]
theorem toggle_entries (s : TrySelector) :
    (toggle_delete_mark s).entries = s.entries := by
  cases hg : (get_filtered_entries s).get? s.cursor_pos with
  | none => simp only [toggle_delete_mark, hg]
  | some e =>
      simp only [toggle_delete_mark, hg]
      split_ifs <;> rfl

@[simp]
theorem toggle_input (s : TrySelector) :
    (toggle_delete_mark s).input_buffer = s.input_buffer := by
  cases hg : (get_filtered_entries s).get? s.cursor_pos with
  | none => simp only [toggle_delete_mark, hg]
  | some e =>
      simp only [toggle_delete_mark, hg]
      split_ifs <;> rfl

@[simp]
theorem toggle_height (s : TrySelector) :
    (toggle_delete_mark s).height = s.height := by
  cases hg : (get_filtered_entries s).get? s.cursor_pos with
  | none => simp only [toggle_delete_mark, hg]
  | some e =>
      simp only [toggle_delete_mark, hg]
      split_ifs <;> rfl

theorem visible_count_adjust (s : TrySelector) :
    visible_count (adjustScroll s) = visible_count s := by
  simp [visible_count, get_filtered_entries]

theorem visible_count_toggle (s : TrySelector) :
    visible_count (toggle_delete_mark s) = visible_count s := by
  simp [visible_count, get_filtered_entries]

theorem visible_count_empty_query (s : TrySelector) (hq : s.input_buffer = []) :
    visible_count s = s.entries.length := by
  simp [visible_count, get_filtered_entries, hq]

theorem maxVisible_adjust (s : TrySelector) : maxVisible (adjustScroll s) = maxVisible s := by
  unfold maxVisible
  rw [adjustScroll_height]

/-- C6 (amended): the confirmation sub-loop submits exactly the collected
characters; the literal YES removes every marked location from the listing
(locations absent from the listing are silently skipped) and sets a status
message counting the marked locations; any other submitted input, the
empty string and Esc-cancel included, leaves the listing untouched and
sets the cancelled status; in both outcomes the marks and delete_mode are
cleared and the entries are reloaded from the resulting listing. -/
theorem c6_confirm_behavior (ks : List ConfirmKey) (fs : List TryEntry) (s : TrySelector) :
    (confirm_batch_delete s (collectConfirmInput ks []) fs).marked_for_deletion = []
    ∧ (confirm_batch_delete s (collectConfirmInput ks []) fs).delete_mode = false
    ∧ (collectConfirmInput ks [] = "YES".data →
        (confirm_batch_delete s (collectConfirmInput ks []) fs).delete_status
          = some (("Deleted ") ++ toString s.marked_for_deletion.length ++ (" items."))
        ∧ ∀ e2 : TryEntry,
            e2 ∈ (confirm_batch_delete s (collectConfirmInput ks []) fs).entries
              ↔ (e2 ∈ fs ∧ e2.path ∉ s.marked_for_deletion))
    ∧ (collectConfirmInput ks [] ≠ "YES".data →
        (confirm_batch_delete s (collectConfirmInput ks []) fs).entries = fs
        ∧ (confirm_batch_delete s (collectConfirmInput ks []) fs).delete_status
          = some ("Delete cancelled.")) := by
  refine ⟨rfl, rfl, ?_, ?_⟩
  · intro hy
    constructor
    · simp [confirm_batch_delete, hy]
    · intro e2
      simp [confirm_batch_delete, hy, List.mem_filter]
  · intro hy
    constructor
    · simp [confirm_batch_delete, hy]
    · simp [confirm_batch_delete, hy]

/-- Witness for C6 (amended): the key sequence Y E S Enter deletes and
reports the one marked path; marks and delete_mode are cleared. -/
theorem c6_confirm_behavior_witness :
    (confirm_batch_delete c6State (collectConfirmInput
        [ConfirmKey.ch ('Y'), ConfirmKey.ch ('E'), ConfirmKey.ch ('S'),
          ConfirmKey.enterKey] []) []).marked_for_deletion = []
    ∧ (confirm_batch_delete c6State (collectConfirmInput
        [ConfirmKey.ch ('Y'), ConfirmKey.ch ('E'), ConfirmKey.ch ('S'),
          ConfirmKey.enterKey] []) []).delete_status
        = some (("Deleted ") ++ toString c6State.marked_for_deletion.length ++ (" items.")) :=
  ⟨(c6_confirm_behavior [ConfirmKey.ch ('Y'), ConfirmKey.ch ('E'), ConfirmKey.ch ('S'),
      ConfirmKey.enterKey] [] c6State).1,
   ((c6_confirm_behavior [ConfirmKey.ch ('Y'), ConfirmKey.ch ('E'), ConfirmKey.ch ('S'),
      ConfirmKey.enterKey] [] c6State).2.2.1 (by decide)).1⟩

/-- Counterexample to C6 as stated: with one marked path that no longer
exists (the listing holds only the unmarked entry named a), confirming
with YES deletes nothing, the listing is unchanged, yet the status message
reports one deleted item. -/
theorem c6_counterexample :
    (confirm_batch_delete c6State ("YES".data) [entA]).entries = [entA]
    ∧ (confirm_batch_delete c6State ("YES".data) [entA]).delete_status
        = some ("Deleted 1 items.") := by
  constructor
  · rfl
  · rfl

/-- C9: evaluation of the run control flow at the failing input of the
code bug: in Scan mode with a missing base directory, when
fs::create_dir_all fails after raw mode was enabled and the cursor hidden,
run returns the error while raw mode is still enabled and the cursor
still hidden, so the claimed unconditional teardown does not happen. -/
theorem c9_raw_mode_leak :
    (runTry (SelectorMode.scan ("base")) c9Oracle (TermState.mk false false)).2.rawMode = true
    ∧ (runTry (SelectorMode.scan ("base")) c9Oracle (TermState.mk false false)).2.cursorHidden
        = true
    ∧ (runTry (SelectorMode.scan ("base")) c9Oracle (TermState.mk false false)).1 = none :=
  ⟨rfl, rfl, rfl⟩

/-- C10 (amended): in History mode with a non-empty query and the cursor
on the trailing virtual row, handle_selection returns none and Enter never
exits the loop; when no delete marks are pending the state is returned
unchanged (with pending marks Enter runs the batch-delete confirmation
instead). -/
theorem c10_history_virtual_enter (s : TrySelector) (typed : List Char)
    (fs : List TryEntry) (now : ℝ) (today : List Char)
    (hm : s.mode.isScan = false) (hq : s.input_buffer ≠ [])
    (hc : s.cursor_pos = (get_filtered_entries s).length) :
    handle_selection s today = none
    ∧ (∀ a : Option ShellAction,
        mainStep (UiEvent.enter typed fs now today) s ≠ LoopStep.exit a)
    ∧ (¬ (s.delete_mode = true ∧ s.marked_for_deletion ≠ []) →
        mainStep (UiEvent.enter typed fs now today) s = LoopStep.cont s) := by
  have hsel : handle_selection s today = none := by
    simp only [handle_selection]
    rw [if_pos (And.intro hq hc)]
    cases hmode : s.mode with
    | scan base =>
        rw [hmode] at hm
        simp [SelectorMode.isScan] at hm
    | history ws => rfl
  refine ⟨hsel, ?_, ?_⟩
  · intro a
    simp only [mainStep]
    by_cases hd : s.delete_mode = true ∧ s.marked_for_deletion ≠ []
    · rw [if_pos hd]
      intro hcontra
      exact LoopStep.noConfusion hcontra
    · rw [if_neg hd, hsel]
      intro hcontra
      exact LoopStep.noConfusion hcontra
  · intro hd
    simp only [mainStep]
    rw [if_neg hd, hsel]

/-- Witness for C10 (amended) at the plain History state on the virtual
row: Enter commits nothing and leaves the state unchanged. -/
theorem c10_history_virtual_enter_witness :
    handle_selection c10Plain ("d".data) = none
    ∧ mainStep (UiEvent.enter [] [] 0 ("d".data)) c10Plain = LoopStep.cont c10Plain :=
  ⟨(c10_history_virtual_enter c10Plain [] [] 0 ("d".data)
      (by decide) (by decide) (by decide)).1,
   (c10_history_virtual_enter c10Plain [] [] 0 ("d".data)
      (by decide) (by decide) (by decide)).2.2 (by decide)⟩

/-- Counterexample to C10 as stated: the History state on the trailing
virtual row with a pending delete mark satisfies every premise of the
claim, yet Enter changes the selector state (the confirmation clears
the mark), so the state is not unchanged. -/
theorem c10_counterexample :
    c10State.mode.isScan = false
    ∧ c10State.input_buffer ≠ []
    ∧ c10State.cursor_pos = (get_filtered_entries c10State).length
    ∧ mainStep (UiEvent.enter ("YES".data) [] 0 ("d".data)) c10State ≠ LoopStep.cont c10State := by
  have hf : get_filtered_entries c10State = [eScored] := by
    unfold get_filtered_entries
    rw [if_neg (show ¬ c10State.input_buffer = [] by decide)]
    show List.filter _ [eScored] = [eScored]
    rw [List.filter_cons]
    rw [if_pos (show decide ((0 : ℝ) < eScored.score) = true from
      decide_eq_true (by norm_num [eScored]))]
    rfl
  refine ⟨rfl, by decide, ?_, ?_⟩
  · rw [hf]
    rfl
  · intro heq
    have hd : c10State.delete_mode = true ∧ c10State.marked_for_deletion ≠ [] := by decide
    simp only [mainStep] at heq
    rw [if_pos hd] at heq
    injection heq with h2
    have h3 := congrArg TrySelector.marked_for_deletion h2
    rw [adjustScroll_marked, refresh_scores_marked, confirm_marked] at h3
    exact absurd h3.symm (by decide)

theorem toggle_filtered (s : TrySelector) :
    get_filtered_entries (toggle_delete_mark s) = get_filtered_entries s := by
  simp [get_filtered_entries]

theorem toggle_marked_of_mem (s : TrySelector) (e : TryEntry)
    (hg : (get_filtered_entries s).get? s.cursor_pos = some e)
    (hmem : e.path ∈ s.marked_for_deletion) :
    (toggle_delete_mark s).marked_for_deletion
      = s.marked_for_deletion.filter (fun p => decide (p ≠ e.path)) := by
  simp only [toggle_delete_mark, hg, if_pos hmem]
  split_ifs <;> rfl

theorem toggle_mode_of_mem (s : TrySelector) (e : TryEntry)
    (hg : (get_filtered_entries s).get? s.cursor_pos = some e)
    (hmem : e.path ∈ s.marked_for_deletion) :
    (toggle_delete_mark s).delete_mode
      = (if s.marked_for_deletion.filter (fun p => decide (p ≠ e.path)) = [] then false
         else s.delete_mode) := by
  simp only [toggle_delete_mark, hg, if_pos hmem]
  split_ifs <;> rfl

theorem toggle_marked_of_not_mem (s : TrySelector) (e : TryEntry)
    (hg : (get_filtered_entries s).get? s.cursor_pos = some e)
    (hmem : e.path ∉ s.marked_for_deletion) :
    (toggle_delete_mark s).marked_for_deletion
      = s.marked_for_deletion ++ [e.path] := by
  simp only [toggle_delete_mark, hg, if_neg hmem]
  rw [if_neg (by simp)]

theorem toggle_mode_of_not_mem (s : TrySelector) (e : TryEntry)
    (hg : (get_filtered_entries s).get? s.cursor_pos = some e)
    (hmem : e.path ∉ s.marked_for_deletion) :
    (toggle_delete_mark s).delete_mode = true := by
  simp only [toggle_delete_mark, hg, if_neg hmem]
  rw [if_neg (by simp)]

theorem toggle_delinv (s : TrySelector)
    (h : s.delete_mode = true ↔ s.marked_for_deletion ≠ []) :
    ((toggle_delete_mark s).delete_mode = true
      ↔ (toggle_delete_mark s).marked_for_deletion ≠ []) := by
  cases hg : (get_filtered_entries s).get? s.cursor_pos with
  | none => simpa only [toggle_delete_mark, hg] using h
  | some e =>
      by_cases hmem : e.path ∈ s.marked_for_deletion
      · rw [toggle_marked_of_mem s e hg hmem, toggle_mode_of_mem s e hg hmem]
        by_cases hnil : s.marked_for_deletion.filter (fun p => decide (p ≠ e.path)) = []
        · rw [if_pos hnil, hnil]
          simp
        · simp only [if_neg hnil]
          constructor
          · intro _
            exact hnil
          · intro _
            exact h.mpr (List.ne_nil_of_mem hmem)
      · rw [toggle_marked_of_not_mem s e hg hmem, toggle_mode_of_not_mem s e hg hmem]
        simp

theorem toggle_toggle_marked (s : TrySelector)
    (h : s.delete_mode = true ↔ s.marked_for_deletion ≠ []) :
    (∀ x, x ∈ (toggle_delete_mark (toggle_delete_mark s)).marked_for_deletion
        ↔ x ∈ s.marked_for_deletion)
    ∧ (toggle_delete_mark (toggle_delete_mark s)).delete_mode = s.delete_mode := by
  cases hg : (get_filtered_entries s).get? s.cursor_pos with
  | none =>
      have ht : toggle_delete_mark s = s := by simp only [toggle_delete_mark, hg]
      rw [ht, ht]
      exact ⟨fun x => Iff.rfl, rfl⟩
  | some e =>
      have hg2 : (get_filtered_entries (toggle_delete_mark s)).get?
          (toggle_delete_mark s).cursor_pos = some e := by
        rw [toggle_filtered, toggle_cursor, hg]
      by_cases hmem : e.path ∈ s.marked_for_deletion
      · have hm1 := toggle_marked_of_mem s e hg hmem
        have hnotmem : e.path ∉ (toggle_delete_mark s).marked_for_deletion := by
          rw [hm1]
          simp
        have hm2 := toggle_marked_of_not_mem (toggle_delete_mark s) e hg2 hnotmem
        have hmode2 := toggle_mode_of_not_mem (toggle_delete_mark s) e hg2 hnotmem
        constructor
        · intro x
          rw [hm2, hm1]
          simp only [List.mem_append, List.mem_filter, List.mem_singleton, decide_eq_true_eq]
          constructor
          · rintro (⟨hx, _⟩ | hx)
            · exact hx
            · rw [hx]
              exact hmem
          · intro hx
            by_cases hxe : x = e.path
            · right
              exact hxe
            · left
              exact ⟨hx, hxe⟩
        · rw [hmode2]
          exact (h.mpr (List.ne_nil_of_mem hmem)).symm
      · have hm1 := toggle_marked_of_not_mem s e hg hmem
        have hmode1 := toggle_mode_of_not_mem s e hg hmem
        have hmem2 : e.path ∈ (toggle_delete_mark s).marked_for_deletion := by
          rw [hm1]
          simp
        have hm2 := toggle_marked_of_mem (toggle_delete_mark s) e hg2 hmem2
        have hmode2 := toggle_mode_of_mem (toggle_delete_mark s) e hg2 hmem2
        have hfilter : (toggle_delete_mark s).marked_for_deletion.filter
            (fun p => decide (p ≠ e.path)) = s.marked_for_deletion := by
          rw [hm1, List.filter_append]
          have h1 : s.marked_for_deletion.filter (fun p => decide (p ≠ e.path))
              = s.marked_for_deletion := by
            apply List.filter_eq_self.mpr
            intro x hx
            simp only [decide_eq_true_eq]
            intro hxe
            rw [hxe] at hx
            exact hmem hx
          have h2 : ([e.path] : List PathBuf).filter (fun p => decide (p ≠ e.path)) = [] := by
            simp
          rw [h1, h2, List.append_nil]
        constructor
        · intro x
          rw [hm2, hfilter]
        · rw [hmode2, hfilter, hmode1]
          by_cases hnil : s.marked_for_deletion = []
          · rw [if_pos hnil]
            have : ¬ s.delete_mode = true := fun hc => (h.mp hc) hnil
            cases hsd : s.delete_mode with
            | false => rfl
            | true => exact absurd hsd this
          · rw [if_neg hnil]
            exact (h.mpr hnil).symm

theorem reachable_delinv (s0 : TrySelector) (hr : Reachable s0) :
    s0.delete_mode = true ↔ s0.marked_for_deletion ≠ [] := by
  induction hr with
  | init mode searchTerm workspacePath entries0 w h now =>
      simp [initState]
  | step e s s2 hr2 hstep ih =>
      cases e with
      | ctrlC =>
          simp only [mainStep] at hstep
          by_cases hd : s.delete_mode = true
          · rw [if_pos hd] at hstep
            injection hstep with h2
            subst h2
            simp
          · rw [if_neg hd] at hstep
            exact LoopStep.noConfusion hstep
      | esc =>
          simp only [mainStep] at hstep
          by_cases hd : s.delete_mode = true
          · rw [if_pos hd] at hstep
            injection hstep with h2
            subst h2
            simp
          · rw [if_neg hd] at hstep
            exact LoopStep.noConfusion hstep
      | enter typed fsEntries now today =>
          simp only [mainStep] at hstep
          by_cases hd : s.delete_mode = true ∧ s.marked_for_deletion ≠ []
          · rw [if_pos hd] at hstep
            injection hstep with h2
            subst h2
            simp
          · rw [if_neg hd] at hstep
            cases hsel : handle_selection s today with
            | some a =>
                rw [hsel] at hstep
                exact LoopStep.noConfusion hstep
            | none =>
                rw [hsel] at hstep
                injection hstep with h2
                subst h2
                exact ih
      | up =>
          simp only [mainStep] at hstep
          injection hstep with h2
          subst h2
          split_ifs
          · simpa using ih
          · exact ih
      | down =>
          simp only [mainStep] at hstep
          injection hstep with h2
          subst h2
          split_ifs
          · simpa using ih
          · exact ih
      | charKey c now =>
          simp only [mainStep] at hstep
          injection hstep with h2
          subst h2
          split_ifs
          · simpa using ih
          · exact ih
      | backspace now =>
          simp only [mainStep] at hstep
          injection hstep with h2
          subst h2
          simpa using ih
      | del =>
          simp only [mainStep] at hstep
          injection hstep with h2
          subst h2
          rw [adjustScroll_delete_mode, adjustScroll_marked]
          exact toggle_delinv s ih
      | resize w h =>
          simp only [mainStep] at hstep
          injection hstep with h2
          subst h2
          simpa using ih

/-- C7: in every reachable selector state, delete_mode holds exactly when
some location is marked for deletion; moreover toggling the mark of the
same row twice restores the marked set (same members) and delete_mode to
their prior values. -/
theorem c7_delete_mode_invariant (s : TrySelector) (hr : Reachable s) :
    (s.delete_mode = true ↔ s.marked_for_deletion ≠ [])
    ∧ (∀ x, x ∈ (toggle_delete_mark (toggle_delete_mark s)).marked_for_deletion
          ↔ x ∈ s.marked_for_deletion)
    ∧ (toggle_delete_mark (toggle_delete_mark s)).delete_mode = s.delete_mode := by
  have h := reachable_delinv s hr
  exact ⟨h, (toggle_toggle_marked s h).1, (toggle_toggle_marked s h).2⟩

/-- Witness for C7 at the freshly initialized Scan-mode selector. -/
theorem c7_delete_mode_invariant_witness :
    ((initState (SelectorMode.scan ("base")) [] ("w") [] 80 24 0).delete_mode = true
      ↔ (initState (SelectorMode.scan ("base")) [] ("w") [] 80 24 0).marked_for_deletion ≠ [])
    ∧ (toggle_delete_mark (toggle_delete_mark
        (initState (SelectorMode.scan ("base")) [] ("w") [] 80 24 0))).delete_mode
      = (initState (SelectorMode.scan ("base")) [] ("w") [] 80 24 0).delete_mode :=
  ⟨(c7_delete_mode_invariant _ (Reachable.init _ _ _ _ _ _ _)).1,
   (c7_delete_mode_invariant _ (Reachable.init _ _ _ _ _ _ _)).2.2⟩

theorem adjustScroll_scroll_ok (s : TrySelector) :
    (adjustScroll s).scroll_offset ≤ s.cursor_pos
    ∧ s.cursor_pos < (adjustScroll s).scroll_offset + maxVisible s := by
  unfold adjustScroll maxVisible
  split_ifs with h1 h2 <;> constructor <;> try simp
  all_goals omega

theorem cursorOk_scroll_adjust (s : TrySelector) :
    (adjustScroll s).scroll_offset ≤ (adjustScroll s).cursor_pos
    ∧ (adjustScroll s).cursor_pos
        < (adjustScroll s).scroll_offset + maxVisible (adjustScroll s) := by
  rw [adjustScroll_cursor, maxVisible_adjust]
  exact adjustScroll_scroll_ok s

@[simp]
theorem visible_count_cursor (s : TrySelector) (k : Nat) :
    visible_count { s with cursor_pos := k } = visible_count s := rfl

theorem stepState_up (s : TrySelector) :
    stepState UiEvent.up s
      = (if 0 < s.cursor_pos then adjustScroll { s with cursor_pos := s.cursor_pos - 1 }
         else s) := rfl

theorem stepState_down (s : TrySelector) :
    stepState UiEvent.down s
      = (if s.cursor_pos < visible_count s - 1 then
          adjustScroll { s with cursor_pos := s.cursor_pos + 1 }
         else s) := rfl

theorem stepState_del (s : TrySelector) :
    stepState UiEvent.del s = adjustScroll (toggle_delete_mark s) := rfl

theorem stepState_backspace (s : TrySelector) (now : ℝ) :
    stepState (UiEvent.backspace now) s
      = adjustScroll (refresh_scores
          { s with input_buffer := s.input_buffer.dropLast, cursor_pos := 0 } now) := rfl

theorem stepState_char (s : TrySelector) (c : Char) (now : ℝ) :
    stepState (UiEvent.charKey c now) s
      = (if allowedChar c then
          adjustScroll (refresh_scores
            { s with input_buffer := s.input_buffer ++ [c], cursor_pos := 0 } now)
         else s) := rfl

theorem stepState_enter_confirm (s : TrySelector) (typed : List Char)
    (fs : List TryEntry) (now : ℝ) (today : List Char)
    (hd : s.delete_mode = true ∧ s.marked_for_deletion ≠ []) :
    stepState (UiEvent.enter typed fs now today) s
      = adjustScroll (refresh_scores (confirm_batch_delete s typed fs) now) := by
  unfold stepState
  rw [show mainStep (UiEvent.enter typed fs now today) s
      = LoopStep.cont (adjustScroll (refresh_scores (confirm_batch_delete s typed fs) now)) from by
    simp only [mainStep]
    rw [if_pos hd]]

theorem cursorOk_init (mode : SelectorMode) (searchTerm : List Char) (wp : PathBuf)
    (entries0 : List TryEntry) (w h : Nat) (now : ℝ) :
    CursorOk (initState mode searchTerm wp entries0 w h now) := by
  unfold initState
  refine ⟨?_, ?_, (cursorOk_scroll_adjust _).1, (cursorOk_scroll_adjust _).2⟩
  · simp only [adjustScroll_cursor, refresh_scores_cursor]
    intro hvc
    exact hvc
  · intro _
    simp only [adjustScroll_cursor, refresh_scores_cursor]

theorem cursorOk_step (e : UiEvent) (s : TrySelector) (hnav : isNavEvent e)
    (h : CursorOk s) : CursorOk (stepState e s) := by
  obtain ⟨h1, h2, h3, h4⟩ := h
  cases e with
  | up =>
      rw [stepState_up]
      split_ifs with hc
      · refine ⟨?_, ?_, (cursorOk_scroll_adjust _).1, (cursorOk_scroll_adjust _).2⟩
        · simp only [visible_count_adjust, visible_count_cursor, adjustScroll_cursor]
          intro hvc
          have := h1 hvc
          omega
        · simp only [visible_count_adjust, visible_count_cursor, adjustScroll_cursor]
          intro hvc
          have := h2 hvc
          omega
      · exact ⟨h1, h2, h3, h4⟩
  | down =>
      rw [stepState_down]
      split_ifs with hc
      · refine ⟨?_, ?_, (cursorOk_scroll_adjust _).1, (cursorOk_scroll_adjust _).2⟩
        · simp only [visible_count_adjust, visible_count_cursor, adjustScroll_cursor]
          intro hvc
          omega
        · simp only [visible_count_adjust, visible_count_cursor, adjustScroll_cursor]
          intro hvc
          omega
      · exact ⟨h1, h2, h3, h4⟩
  | del =>
      rw [stepState_del]
      refine ⟨?_, ?_, (cursorOk_scroll_adjust _).1, (cursorOk_scroll_adjust _).2⟩
      · simp only [visible_count_adjust, visible_count_toggle, adjustScroll_cursor,
          toggle_cursor]
        exact h1
      · simp only [visible_count_adjust, visible_count_toggle, adjustScroll_cursor,
          toggle_cursor]
        exact h2
  | backspace now =>
      rw [stepState_backspace]
      refine ⟨?_, ?_, (cursorOk_scroll_adjust _).1, (cursorOk_scroll_adjust _).2⟩
      · simp only [adjustScroll_cursor, refresh_scores_cursor]
        intro hvc
        exact hvc
      · intro _
        simp only [adjustScroll_cursor, refresh_scores_cursor]
  | charKey c now =>
      rw [stepState_char]
      split_ifs with hc
      · refine ⟨?_, ?_, (cursorOk_scroll_adjust _).1, (cursorOk_scroll_adjust _).2⟩
        · simp only [adjustScroll_cursor, refresh_scores_cursor]
          intro hvc
          exact hvc
        · intro _
          simp only [adjustScroll_cursor, refresh_scores_cursor]
      · exact ⟨h1, h2, h3, h4⟩
  | enter typed fsEntries now today => simp [isNavEvent] at hnav
  | esc => simp [isNavEvent] at hnav
  | ctrlC => simp [isNavEvent] at hnav
  | resize w2 h2 => simp [isNavEvent] at hnav

theorem cursorOk_foldl (es : List UiEvent) : ∀ s : TrySelector, CursorOk s →
    (∀ e ∈ es, isNavEvent e) →
    CursorOk (es.foldl (fun st e => stepState e st) s) := by
  induction es with
  | nil =>
      intro s h _
      simpa using h
  | cons e es2 ih =>
      intro s h hnav
      rw [List.foldl_cons]
      exact ih _ (cursorOk_step e s (hnav e (by simp)) h)
        (fun e2 he2 => hnav e2 (by simp [he2]))

/-- C5 (amended): for every sequence of character-input, backspace,
up/down and delete-toggle events from a freshly initialized selector, the
cursor invariant holds: the cursor stays below visible_count whenever the
view is non-empty, and the cursor lies inside the scroll window. After a
batch-delete confirmation with entry reload the cursor bound can fail
(see the counterexample), so that event is excluded here. -/
theorem c5_cursor_invariant (mode : SelectorMode) (searchTerm : List Char) (wp : PathBuf)
    (entries0 : List TryEntry) (w h : Nat) (now : ℝ) (es : List UiEvent)
    (hnav : ∀ e ∈ es, isNavEvent e) :
    CursorOk (es.foldl (fun st e => stepState e st)
      (initState mode searchTerm wp entries0 w h now)) :=
  cursorOk_foldl es _ (cursorOk_init mode searchTerm wp entries0 w h now) hnav

/-- Witness for C5 (amended): one Up event from a fresh empty selector. -/
theorem c5_cursor_invariant_witness :
    CursorOk (([UiEvent.up]).foldl (fun st e => stepState e st)
      (initState (SelectorMode.scan ("base")) [] ("w") [] 80 24 0)) :=
  c5_cursor_invariant (SelectorMode.scan ("base")) [] ("w") [] 80 24 0 [UiEvent.up]
    (by simp [isNavEvent])

theorem refresh_scores_path_mem (s : TrySelector) (now : ℝ) (e : TryEntry)
    (he : e ∈ (refresh_scores s now).entries) :
    e.path ∈ s.entries.map (fun x => x.path) := by
  have hperm : ((s.entries.map (fun e2 =>
      { e2 with score := calculate_score e2 (s.input_buffer.map Char.toLower) now })).mergeSort
        (fun a b => decide (b.score ≤ a.score))).Perm
      (s.entries.map (fun e2 =>
        { e2 with score := calculate_score e2 (s.input_buffer.map Char.toLower) now })) :=
    List.mergeSort_perm _ _
  have he2 : e ∈ s.entries.map (fun e2 =>
      { e2 with score := calculate_score e2 (s.input_buffer.map Char.toLower) now }) :=
    hperm.mem_iff.mp he
  rcases List.mem_map.mp he2 with ⟨a, ha, hfa⟩
  rw [← hfa]
  exact List.mem_map.mpr ⟨a, ha, rfl⟩

/-- Counterexample to C5 as stated: from two entries, moving the cursor
down, marking the second filtered entry and confirming its deletion with
YES reloads a one-entry list while the cursor index stays at 1, so the
claimed bound cursor_index < visible_count fails after a batch-delete
confirmation with entry reload. -/
theorem c5_counterexample :
    0 < visible_count (([UiEvent.down, UiEvent.del,
        UiEvent.enter ("YES".data) [entA, entB] 0 []]).foldl (fun st e => stepState e st)
      (initState (SelectorMode.scan ("base")) [] ("w") [entA, entB] 80 24 0))
    ∧ ¬ ((([UiEvent.down, UiEvent.del,
        UiEvent.enter ("YES".data) [entA, entB] 0 []]).foldl (fun st e => stepState e st)
      (initState (SelectorMode.scan ("base")) [] ("w") [entA, entB] 80 24 0)).cursor_pos
      < visible_count (([UiEvent.down, UiEvent.del,
        UiEvent.enter ("YES".data) [entA, entB] 0 []]).foldl (fun st e => stepState e st)
      (initState (SelectorMode.scan ("base")) [] ("w") [entA, entB] 80 24 0))) := by
  set s0 : TrySelector := initState (SelectorMode.scan ("base")) [] ("w") [entA, entB] 80 24 0
    with hs0def
  have hfold : ([UiEvent.down, UiEvent.del,
      UiEvent.enter ("YES".data) [entA, entB] 0 []]).foldl (fun st e => stepState e st) s0
      = stepState (UiEvent.enter ("YES".data) [entA, entB] 0 [])
          (stepState UiEvent.del (stepState UiEvent.down s0)) := rfl
  rw [hfold]
  have hin0 : s0.input_buffer = [] := by
    rw [hs0def]
    simp [initState]
  have hcur0 : s0.cursor_pos = 0 := by
    rw [hs0def]
    simp [initState]
  have hmk0 : s0.marked_for_deletion = [] := by
    rw [hs0def]
    simp [initState]
  have hlen0 : s0.entries.length = 2 := by
    rw [hs0def]
    simp [initState]
  have hvc0 : visible_count s0 = 2 := by
    rw [visible_count_empty_query s0 hin0, hlen0]
  have hs1 : stepState UiEvent.down s0 = adjustScroll { s0 with cursor_pos := s0.cursor_pos + 1 } := by
    rw [stepState_down, if_pos (show s0.cursor_pos < visible_count s0 - 1 by
      rw [hcur0, hvc0]
      norm_num)]
  set s1 := stepState UiEvent.down s0 with hs1def
  have hcur1 : s1.cursor_pos = 1 := by
    rw [hs1, adjustScroll_cursor]
    show s0.cursor_pos + 1 = 1
    rw [hcur0]
  have hin1 : s1.input_buffer = [] := by
    rw [hs1, adjustScroll_input]
    exact hin0
  have hent1 : s1.entries = s0.entries := by
    rw [hs1, adjustScroll_entries]
  have hmk1 : s1.marked_for_deletion = [] := by
    rw [hs1, adjustScroll_marked]
    exact hmk0
  have hlen1 : s1.entries.length = 2 := by
    rw [hent1]
    exact hlen0
  have hfl1 : get_filtered_entries s1 = s1.entries := by
    unfold get_filtered_entries
    rw [if_pos hin1]
  have hlt1 : 1 < s1.entries.length := by omega
  set e := s1.entries.get ⟨1, hlt1⟩ with hedef
  have hge : s1.entries.get? 1 = some e := List.get?_eq_get hlt1
  have hgemem : e ∈ s1.entries := List.get_mem s1.entries 1 hlt1
  have hge2 : (get_filtered_entries s1).get? s1.cursor_pos = some e := by
    rw [hfl1, hcur1, hge]
  have hmem1 : e.path ∉ s1.marked_for_deletion := by
    rw [hmk1]
    simp
  have hs2 : stepState UiEvent.del s1 = adjustScroll (toggle_delete_mark s1) :=
    stepState_del s1
  set s2 := stepState UiEvent.del s1 with hs2def
  have hmk2 : s2.marked_for_deletion = [e.path] := by
    rw [hs2, adjustScroll_marked, toggle_marked_of_not_mem s1 e hge2 hmem1, hmk1]
    rfl
  have hdm2 : s2.delete_mode = true := by
    rw [hs2, adjustScroll_delete_mode]
    exact toggle_mode_of_not_mem s1 e hge2 hmem1
  have hcur2 : s2.cursor_pos = 1 := by
    rw [hs2, adjustScroll_cursor, toggle_cursor]
    exact hcur1
  have hin2 : s2.input_buffer = [] := by
    rw [hs2, adjustScroll_input, toggle_input]
    exact hin1
  have hpath : e.path = ("a" : String) ∨ e.path = ("b" : String) := by
    have he0 : e ∈ s0.entries := hent1 ▸ hgemem
    rw [hs0def] at he0
    unfold initState at he0
    rw [adjustScroll_entries] at he0
    have hmapped := refresh_scores_path_mem _ _ _ he0
    simpa [entA, entB] using hmapped
  have hs3 : stepState (UiEvent.enter ("YES".data) [entA, entB] 0 []) s2
      = adjustScroll (refresh_scores (confirm_batch_delete s2 ("YES".data) [entA, entB]) 0) :=
    stepState_enter_confirm s2 ("YES".data) [entA, entB] 0 []
      ⟨hdm2, by rw [hmk2]; simp⟩
  set s3 := stepState (UiEvent.enter ("YES".data) [entA, entB] 0 []) s2 with hs3def
  have hcur3 : s3.cursor_pos = 1 := by
    rw [hs3, adjustScroll_cursor, refresh_scores_cursor, confirm_cursor]
    exact hcur2
  have hin3 : s3.input_buffer = [] := by
    rw [hs3, adjustScroll_input, refresh_scores_input, confirm_input]
    exact hin2
  have hconfent : (confirm_batch_delete s2 ("YES".data) [entA, entB]).entries
      = ([entA, entB]).filter (fun e2 => decide (e2.path ∉ s2.marked_for_deletion)) := by
    simp [confirm_batch_delete]
  have hlen3 : s3.entries.length = 1 := by
    rw [hs3, adjustScroll_entries, refresh_scores_entries_length, hconfent, hmk2]
    rcases hpath with hp | hp
    · rw [hp]
      decide
    · rw [hp]
      decide
  have hvc3 : visible_count s3 = 1 := by
    rw [visible_count_empty_query s3 hin3, hlen3]
  constructor
  · rw [hvc3]
    norm_num
  · rw [hvc3, hcur3]
    omega
